import Mathlib

/-!
Verification of the AI real-estate assistant's pipeline, scoring, ranking and
send-gate logic against its specification.

The repository's checked-in sources contain the frontend (TypeScript types in
`frontend/src/types`, the pages, and the pipeline progress helper with
`getStageStatus`).  The backend services (scoring engine, ranking engine,
pipeline state machine, review/send gate) are not among the checked-in
sources; those operations are modelled from the specification's words and are
marked `Modelled from the spec:` in their doc comments.  Data types are
translated from `frontend/src/types/pipeline.ts` and
`frontend/src/types/listing.ts`.
-/

namespace RealEstate

/-- Pipeline stage enum, from `frontend/src/types/pipeline.ts`
(`PipelineStage`). -/
inductive PipelineStage where
  | ingestion
  | extraction
  | search
  | ranking
  | review
  | send
deriving DecidableEq, Repr

/-- Pipeline status enum, from `frontend/src/types/pipeline.ts`
(`PipelineStatus`). -/
inductive PipelineStatus where
  | pending
  | in_progress
  | completed
  | failed
deriving DecidableEq, Repr

/-- Pipeline run record, from `frontend/src/types/pipeline.ts`
(`PipelineRun`).  Nullable `string` timestamps become `Option String`. -/
structure PipelineRun where
  id : Nat
  transcript_id : Nat
  current_stage : PipelineStage
  status : PipelineStatus
  ingestion_completed_at : Option String
  extraction_completed_at : Option String
  search_completed_at : Option String
  ranking_completed_at : Option String
  review_completed_at : Option String
  send_completed_at : Option String
  error_message : Option String
  created_at : String
deriving DecidableEq, Repr

/-- The per-stage completion timestamp of a run: the `completedAtKey`
record of the pipeline progress component, applied to the run. -/
def completedAt (run : PipelineRun) : PipelineStage → Option String
  | .ingestion => run.ingestion_completed_at
  | .extraction => run.extraction_completed_at
  | .search => run.search_completed_at
  | .ranking => run.ranking_completed_at
  | .review => run.review_completed_at
  | .send => run.send_completed_at

/-- The four visual states `getStageStatus` distinguishes in the pipeline
progress component. -/
inductive StageBadge where
  | completed
  | active
  | pending
  | failed
deriving DecidableEq, Repr

/-- JavaScript truthiness of a `string | null` value: `null` and the empty
string are falsy, every other string is truthy.  The source tests the
timestamp with `if (run[completedAtKey[stage]])`. -/
def jsTruthy : Option String → Bool
  | none => false
  | some s => !(s == "")

/-- `getStageStatus` from the pipeline progress component: failed when the
run failed at this stage, else completed when the stage's timestamp is
truthy, else active when this is the current stage, else pending. -/
def getStageStatus (stage : PipelineStage) (run : PipelineRun) : StageBadge :=
  if run.status == .failed && run.current_stage == stage then .failed
  else if jsTruthy (completedAt run stage) then .completed
  else if run.current_stage == stage then .active
  else .pending

/-- A listing record, from `frontend/src/types/listing.ts` (`Listing`).
Nullable numbers become `Option ℚ`, nullable strings `Option String`. -/
structure Listing where
  id : Nat
  external_id : Option String
  source : Option String
  address : Option String
  price : Option ℚ
  bedrooms : Option ℚ
  bathrooms : Option ℚ
  sqft : Option ℚ
  property_type : Option String
  description : Option String
  neighborhood : Option String
  image_url : Option String
  year_built : Option ℚ
  days_on_market : Option ℚ
  listing_url : Option String
deriving DecidableEq, Repr

/-- One must-have check result, from `ScoreBreakdown.must_have_checks` in
`frontend/src/types/listing.ts`: `{ pass: boolean; reason: string }`. -/
structure Check where
  pass : Bool
  reason : String
deriving DecidableEq, Repr

/-- One nice-to-have detail, from `ScoreBreakdown.nice_to_have_details` in
`frontend/src/types/listing.ts`: `{ score: number; reason: string }`. -/
structure NiceDetail where
  score : ℚ
  reason : String
deriving DecidableEq, Repr

/-- The weight pair from `ScoreBreakdown.weights` in
`frontend/src/types/listing.ts`. -/
structure Weights where
  must_have : ℚ
  nice_to_have : ℚ
deriving DecidableEq, Repr

/-- Score breakdown, from `frontend/src/types/listing.ts`
(`ScoreBreakdown`); the two `Record<string, …>` maps become association
lists. -/
structure ScoreBreakdown where
  must_have_checks : List (String × Check)
  nice_to_have_details : List (String × NiceDetail)
  must_have_rate : ℚ
  weights : Weights
deriving DecidableEq, Repr

/-- A ranked listing, from `frontend/src/types/listing.ts`
(`RankedListing`). -/
structure RankedListing where
  id : Nat
  listing : Listing
  overall_score : Option ℚ
  must_have_pass : Option Bool
  nice_to_have_score : Option ℚ
  rank_position : Option Nat
  score_breakdown : Option ScoreBreakdown
  approved_by_harry : Option Bool
  sent_to_client : Bool
deriving DecidableEq, Repr

/-- An extracted requirement, from `frontend/src/types/requirement.ts`
(`ExtractedRequirement`). -/
structure ExtractedRequirement where
  id : Nat
  transcript_id : Nat
  client_id : Option Nat
  client_name : Option String
  budget_max : Option ℚ
  locations : List String
  must_haves : List String
  nice_to_haves : List String
  property_type : Option String
  min_beds : Option ℚ
  min_baths : Option ℚ
  min_sqft : Option ℚ
  school_requirement : Option String
  timeline : Option String
  financing_type : Option String
  confidence_score : Option ℚ
  llm_provider : Option String
  llm_model : Option String
  is_edited : Bool
  created_at : String
  updated_at : String
deriving DecidableEq, Repr

/-! ### Scoring engine (spec §4.1)

The backend scoring service is not among the checked-in sources; the
definitions below are modelled from the specification. -/

/-- Lower-cased character list of a string, for the spec's case-insensitive
matching. -/
def lowerChars (s : String) : List Char :=
  s.data.map Char.toLower

/-- Whether `pat` occurs as a contiguous run inside `hay`. -/
def containsSeq (pat : List Char) : List Char → Bool
  | [] => pat.isEmpty
  | c :: rest => pat.isPrefixOf (c :: rest) || containsSeq pat rest

/-- Case-insensitive substring test between two strings. -/
def ciContains (hay pat : String) : Bool :=
  containsSeq (lowerChars pat) (lowerChars hay)

/-- Case-insensitive substring test against a nullable text field; a null
field never matches. -/
def ciContainsOpt (hay : Option String) (pat : String) : Bool :=
  match hay with
  | none => false
  | some s => ciContains s pat

/-- Modelled from the spec: the reason recorded when a numeric must-have is
checked against a null listing field — "the reason string states
\"unknown value, cannot verify.\"" (§4.1). -/
def unknownReason : String := "unknown value, cannot verify"

/-- Modelled from the spec: one numeric-maximum must-have check
(`budget_max`): skipped when the requirement bound is unset, failing with
`unknownReason` when the listing value is null, else a comparison (§4.1). -/
def checkNumericMax (key : String) (bound : Option ℚ) (v : Option ℚ) :
    Option (String × Check) :=
  match bound with
  | none => none
  | some b =>
    match v with
    | none => some (key, ⟨false, unknownReason⟩)
    | some x =>
      some (key, ⟨decide (x ≤ b),
        if x ≤ b then "value within the maximum" else "value above the maximum"⟩)

/-- Modelled from the spec: one numeric-minimum must-have check (`min_beds`,
`min_baths`, `min_sqft`): skipped when the requirement bound is unset,
failing with `unknownReason` when the listing value is null, else a
comparison (§4.1). -/
def checkNumericMin (key : String) (bound : Option ℚ) (v : Option ℚ) :
    Option (String × Check) :=
  match bound with
  | none => none
  | some b =>
    match v with
    | none => some (key, ⟨false, unknownReason⟩)
    | some x =>
      some (key, ⟨decide (b ≤ x),
        if b ≤ x then "value meets the minimum" else "value below the minimum"⟩)

/-- Modelled from the spec: the location must-have check — passes if any
entry of `locations` is a case-insensitive substring of the listing's
address or neighborhood; skipped entirely when `locations` is empty
(§4.1). -/
def checkLocation (req : ExtractedRequirement) (l : Listing) :
    Option (String × Check) :=
  match req.locations with
  | [] => none
  | locs =>
    let hit := locs.any fun loc =>
      ciContainsOpt l.address loc || ciContainsOpt l.neighborhood loc
    some ("location", ⟨hit,
      if hit then "a requested location matches the listing"
      else "no requested location matches the listing"⟩)

/-- Modelled from the spec: the property-type must-have check — exact
case-insensitive match against the listing's `property_type`; skipped when
the requirement's `property_type` is unset; a null listing type cannot
satisfy the constraint (§4.1, §3). -/
def checkPropertyType (req : ExtractedRequirement) (l : Listing) :
    Option (String × Check) :=
  match req.property_type with
  | none => none
  | some want =>
    let hit := match l.property_type with
      | none => false
      | some have_ => lowerChars want == lowerChars have_
    some ("property_type", ⟨hit,
      if hit then "property type matches" else "property type differs"⟩)

/-- Modelled from the spec: one free-text must-have entry, evaluated by
keyword presence in the listing description (§4.1). -/
def checkFreeText (l : Listing) (entry : String) : String × Check :=
  let hit := ciContainsOpt l.description entry
  (entry, ⟨hit,
    if hit then "keyword found in the description"
    else "keyword absent from the description"⟩)

/-- Modelled from the spec: every evaluated must-have check, in a fixed
order; a category absent from the requirement is omitted entirely
(§4.1). -/
def mustHaveChecks (req : ExtractedRequirement) (l : Listing) :
    List (String × Check) :=
  (checkNumericMax "budget_max" req.budget_max l.price).toList ++
  (checkNumericMin "min_beds" req.min_beds l.bedrooms).toList ++
  (checkNumericMin "min_baths" req.min_baths l.bathrooms).toList ++
  (checkNumericMin "min_sqft" req.min_sqft l.sqft).toList ++
  (checkLocation req l).toList ++
  (checkPropertyType req l).toList ++
  req.must_haves.map (checkFreeText l)

/-- Modelled from the spec: fraction of evaluated must-have checks that
passed; `1` when zero checks were evaluated (§4.1). -/
def mustHaveRate (req : ExtractedRequirement) (l : Listing) : ℚ :=
  let checks := mustHaveChecks req l
  if checks.isEmpty then 1
  else (checks.countP fun c => c.2.pass : ℕ) / (checks.length : ℚ)

/-- Modelled from the spec: per-entry nice-to-have details, scored by keyword
presence in the description (§4.1). -/
def niceToHaveDetails (req : ExtractedRequirement) (l : Listing) :
    List (String × NiceDetail) :=
  req.nice_to_haves.map fun e =>
    (e, if ciContainsOpt l.description e then ⟨1, "keyword found in the description"⟩
        else ⟨0, "keyword absent from the description"⟩)

/-- Modelled from the spec: aggregate nice-to-have score, the arithmetic
mean of the per-entry scores; `1` when `nice_to_haves` is empty (§4.1). -/
def niceToHaveScore (req : ExtractedRequirement) (l : Listing) : ℚ :=
  let details := niceToHaveDetails req l
  if details.isEmpty then 1
  else (details.map fun d => d.2.score).sum / (details.length : ℚ)

/-- Modelled from the spec: the default weight configuration, must_have=0.7
and nice_to_have=0.3 (§4.1). -/
def defaultWeights : Weights := ⟨7 / 10, 3 / 10⟩

/-- The scoring engine's full result for one listing: the breakdown embedded
in a ranking record plus the derived scalar fields of `RankedListing`. -/
structure ScoredListing where
  listing : Listing
  score_breakdown : ScoreBreakdown
  overall_score : ℚ
  must_have_pass : Bool
  nice_to_have_score : ℚ
deriving DecidableEq, Repr

/-- Modelled from the spec: `score(requirement, listing) -> ScoreBreakdown`,
pure and deterministic; `must_have_pass` is true only if
`must_have_rate == 1.0`, and
`overall_score = weights.must_have * must_have_rate
  + weights.nice_to_have * nice_to_have_score` (§4.1, §3). -/
def score (req : ExtractedRequirement) (l : Listing) : ScoredListing :=
  let rate := mustHaveRate req l
  let nts := niceToHaveScore req l
  { listing := l
    score_breakdown :=
      ⟨mustHaveChecks req l, niceToHaveDetails req l, rate, defaultWeights⟩
    overall_score := defaultWeights.must_have * rate + defaultWeights.nice_to_have * nts
    must_have_pass := decide (rate = 1)
    nice_to_have_score := nts }

/-! ### Ranking engine (spec §4.2) -/

/-- Modelled from the spec: the ranking engine's comparison — primarily
`must_have_pass` descending (passes first), secondarily `overall_score`
descending, ties broken by listing id ascending (§4.2). -/
def rankLE (a b : ScoredListing) : Bool :=
  (a.must_have_pass && !b.must_have_pass) ||
  (a.must_have_pass == b.must_have_pass &&
    (decide (b.overall_score < a.overall_score) ||
      (a.overall_score == b.overall_score && decide (a.listing.id ≤ b.listing.id))))

/-- Wraps one scored listing into a `RankedListing` with the given 1-based
rank position; approval starts undecided and nothing is sent yet. -/
def toRankedListing (s : ScoredListing) (pos : Nat) : RankedListing :=
  { id := s.listing.id
    listing := s.listing
    overall_score := some s.overall_score
    must_have_pass := some s.must_have_pass
    nice_to_have_score := some s.nice_to_have_score
    rank_position := some pos
    score_breakdown := some s.score_breakdown
    approved_by_harry := none
    sent_to_client := false }

/-- Assigns consecutive rank positions starting at `n` down an already
sorted list of scored listings. -/
def assignPositions : Nat → List ScoredListing → List RankedListing
  | _, [] => []
  | n, s :: rest => toRankedListing s n :: assignPositions (n + 1) rest

/-- Modelled from the spec: `rank(requirement, listings)` — score every
listing, sort by the ranking comparison, and assign `rank_position` as the
1-based index in the final order; no listing is dropped (§4.2). -/
def rank (req : ExtractedRequirement) (listings : List Listing) :
    List RankedListing :=
  assignPositions 1 ((listings.map (score req)).mergeSort rankLE)

/-- The claim's order on ranked output: `a` may precede `b` only when `a`
passes and `b` fails the must-haves, or they tie on `must_have_pass` and
`a`'s overall score is higher, or both tie and `a`'s listing id is not
larger. -/
def rankedBefore (a b : RankedListing) : Prop :=
  (a.must_have_pass = some true ∧ b.must_have_pass = some false) ∨
  (a.must_have_pass = b.must_have_pass ∧
    ∃ x y, a.overall_score = some x ∧ b.overall_score = some y ∧
      (y < x ∨ (x = y ∧ a.listing.id ≤ b.listing.id)))

/-! ### Pipeline state machine (spec §4.3)

The backend pipeline service is not among the checked-in sources; the stage
ordering and transition effects below are modelled from the
specification. -/

/-- The predecessor of each stage in the fixed order
`ingestion → extraction → search → ranking → review → send`;
`ingestion` has none (§4.3). -/
def prevStage : PipelineStage → Option PipelineStage
  | .ingestion => none
  | .extraction => some .ingestion
  | .search => some .extraction
  | .ranking => some .search
  | .review => some .ranking
  | .send => some .review

/-- The successor of each stage; `send` is terminal and keeps itself
(§4.3). -/
def nextStage : PipelineStage → PipelineStage
  | .ingestion => .extraction
  | .extraction => .search
  | .search => .ranking
  | .ranking => .review
  | .review => .send
  | .send => .send

/-- Writes one stage's completion timestamp on a run. -/
def setCompletedAt (run : PipelineRun) : PipelineStage → String → PipelineRun
  | .ingestion, t => { run with ingestion_completed_at := some t }
  | .extraction, t => { run with extraction_completed_at := some t }
  | .search, t => { run with search_completed_at := some t }
  | .ranking, t => { run with ranking_completed_at := some t }
  | .review, t => { run with review_completed_at := some t }
  | .send, t => { run with send_completed_at := some t }

/-- Modelled from the spec: stage N may begin only if stage N−1 has its
completion timestamp set — except `ingestion`, which begins at run creation
(§4.3). -/
def canStart (run : PipelineRun) (s : PipelineStage) : Bool :=
  match prevStage s with
  | none => true
  | some p => (completedAt run p).isSome

/-- Modelled from the spec: entering a stage — `none` when the predecessor
is not completed (the stage never executes out of order), otherwise the run
with `current_stage = N` and `status = in_progress` (§4.3). -/
def startStage (run : PipelineRun) (s : PipelineStage) : Option PipelineRun :=
  if canStart run s then
    some { run with current_stage := s, status := .in_progress }
  else none

/-- The outcome of executing one stage's body: a completion timestamp, or
the error message of a caught failure. -/
inductive StageOutcome where
  | success (ts : String)
  | failure (msg : String)
deriving DecidableEq, Repr

/-- Modelled from the spec: finishing a stage — success sets that stage's
completion timestamp, `status = completed` and advances `current_stage`;
failure sets `status = failed` and records `error_message`, touching no
completion timestamp (§4.3). -/
def finishStage (run : PipelineRun) (s : PipelineStage) : StageOutcome → PipelineRun
  | .success ts =>
    { setCompletedAt run s ts with
      status := .completed, current_stage := nextStage s }
  | .failure msg =>
    { run with status := .failed, error_message := some msg }

/-! ### Review/send gate (spec §4.4, §7)

The backend send service is not among the checked-in sources; the delivery
gate below is modelled from the specification.  Its result type follows the
frontend api layer's `SendStatusResponse` (`sent_count`, nullable
`sent_at`). -/

/-- The error kinds of spec §7. -/
inductive GateError where
  | ValidationError
  | ExternalCapabilityError
  | PreconditionFailed
  | ConcurrentModification
deriving DecidableEq, Repr

/-- A delivery result: recipient, number of listings sent, and the delivery
timestamp (`sent_count` and `sent_at` as in the api layer's
`SendStatusResponse`). -/
structure SendResult where
  recipient : String
  sent_count : Nat
  sent_at : Option String
deriving DecidableEq, Repr

/-- The state the send gate works on: the run, its rankings, the recorded
prior delivery (recipient, count, timestamp), and a counter of delivery
events actually performed against the external capability. -/
structure SendGateState where
  run : PipelineRun
  rankings : List RankedListing
  recipient_email : Option String
  sent_count : Option Nat
  sent_at : Option String
  deliveries : Nat
deriving DecidableEq, Repr

/-- How many rankings of the run Harry approved
(`approved_by_harry = true`). -/
def approvedCount (st : SendGateState) : Nat :=
  (st.rankings.filter fun r => r.approved_by_harry == some true).length

/-- Whether the run's `send` stage is already completed (its completion
timestamp is set). -/
def sendCompleted (st : SendGateState) : Bool :=
  (completedAt st.run .send).isSome

/-- The prior delivery result recorded on the state, as `send` returns it
for an already-completed run. -/
def priorResult (st : SendGateState) : SendResult :=
  ⟨st.recipient_email.getD "", st.sent_count.getD 0, st.sent_at⟩

/-- Modelled from the spec: `send(runId, recipient)` — at-most-once per run:
once the run's `send` stage is completed a repeat call returns the prior
result without re-sending; otherwise it requires at least one approved
ranking (`PreconditionFailed` when none) and then performs the single
delivery of the approved listings, recording recipient, count and timestamp
and completing the `send` stage (§4.4, §7). -/
def send (st : SendGateState) (recipient : String) (now : String) :
    SendGateState × Except GateError SendResult :=
  if sendCompleted st then
    (st, .ok (priorResult st))
  else if approvedCount st == 0 then
    (st, .error .PreconditionFailed)
  else
    let cnt := approvedCount st
    let st' : SendGateState :=
      { st with
        run := { setCompletedAt st.run .send now with
                 status := .completed, current_stage := .send }
        rankings := st.rankings.map fun r =>
          if r.approved_by_harry == some true then { r with sent_to_client := true } else r
        recipient_email := some recipient
        sent_count := some cnt
        sent_at := some now
        deliveries := st.deliveries + 1 }
    (st', .ok ⟨recipient, cnt, some now⟩)

/-! ### The send page's gating (frontend `SendPage`) -/

/-- The send page's approved list: rankings kept only when
`approved_by_harry === true`
(`data.rankings.filter((r) => r.approved_by_harry === true)`). -/
def approvedRankings (rankings : List RankedListing) : List RankedListing :=
  rankings.filter fun r => r.approved_by_harry == some true

/-- JavaScript `String.prototype.trim` over the string's characters:
whitespace stripped from both ends. -/
def jsTrim (s : String) : String :=
  ⟨((s.data.dropWhile Char.isWhitespace).reverse.dropWhile Char.isWhitespace).reverse⟩

/-- The send button's `disabled` expression from `SendPage`:
`sending || !recipientEmail.trim() || approved.length === 0`. -/
def sendButtonDisabled (sending : Bool) (recipientEmail : String)
    (approved : List RankedListing) : Bool :=
  sending || (jsTrim recipientEmail == "") || (approved.length == 0)

/-! ### Concrete inputs used by the witnesses and counterexamples below -/

/-- A run whose status is not failed and whose extraction timestamp is the
empty string: non-null, yet falsy to the JavaScript truthiness test of
`getStageStatus`. -/
def runCE : PipelineRun :=
  { id := 1
    transcript_id := 1
    current_stage := .search
    status := .in_progress
    ingestion_completed_at := some "2024-01-01T00:00:00Z"
    extraction_completed_at := some ""
    search_completed_at := none
    ranking_completed_at := none
    review_completed_at := none
    send_completed_at := none
    error_message := none
    created_at := "2024-01-01T00:00:00Z" }

/-- A requirement with no constraint of any kind set. -/
def emptyReq : ExtractedRequirement :=
  { id := 1, transcript_id := 1, client_id := none, client_name := none,
    budget_max := none, locations := [], must_haves := [],
    nice_to_haves := [], property_type := none, min_beds := none,
    min_baths := none, min_sqft := none, school_requirement := none,
    timeline := none, financing_type := none, confidence_score := none,
    llm_provider := none, llm_model := none, is_edited := false,
    created_at := "2024-01-01T00:00:00Z", updated_at := "2024-01-01T00:00:00Z" }

/-- A fully populated concrete listing. -/
def sampleListing : Listing :=
  { id := 11, external_id := none, source := none,
    address := some "12 Main St", price := some 450000, bedrooms := some 3,
    bathrooms := some 2, sqft := some 1500, property_type := some "house",
    description := some "bright house close to transit",
    neighborhood := some "Downtown", image_url := none,
    year_built := some 1990, days_on_market := some 12, listing_url := none }

/-- A run that completed ingestion and extraction and is in the search
stage. -/
def runAfterExtraction : PipelineRun :=
  { id := 7, transcript_id := 3, current_stage := .search,
    status := .in_progress,
    ingestion_completed_at := some "2024-01-01T00:01:00Z",
    extraction_completed_at := some "2024-01-01T00:02:00Z",
    search_completed_at := none, ranking_completed_at := none,
    review_completed_at := none, send_completed_at := none,
    error_message := none, created_at := "2024-01-01T00:00:00Z" }

/-- The run `startStage` produces when the search stage is entered from
`runAfterExtraction`. -/
def runEnteredSearch : PipelineRun :=
  { runAfterExtraction with current_stage := .search, status := .in_progress }

/-- An approved ranking that has been delivered. -/
def sentRanking : RankedListing :=
  { id := 21, listing := sampleListing, overall_score := some 1,
    must_have_pass := some true, nice_to_have_score := some 1,
    rank_position := some 1, score_breakdown := none,
    approved_by_harry := some true, sent_to_client := true }

/-- A send-gate state whose run already completed the send stage, with the
prior delivery result recorded. -/
def stSent : SendGateState :=
  { run := { runAfterExtraction with
             current_stage := .send, status := .completed,
             search_completed_at := some "2024-01-01T00:03:00Z",
             ranking_completed_at := some "2024-01-01T00:04:00Z",
             review_completed_at := some "2024-01-01T00:05:00Z",
             send_completed_at := some "2024-01-01T00:06:00Z" },
    rankings := [sentRanking],
    recipient_email := some "client@example.com",
    sent_count := some 1,
    sent_at := some "2024-01-01T00:06:00Z",
    deliveries := 1 }

/-- A ranking Harry has not decided on. -/
def undecidedRanking : RankedListing :=
  { sentRanking with id := 22, approved_by_harry := none, sent_to_client := false }

/-- A ranking Harry rejected. -/
def rejectedRanking : RankedListing :=
  { sentRanking with id := 23, approved_by_harry := some false, sent_to_client := false }

/-- A send-gate state with no delivery yet and zero approved rankings. -/
def stFresh : SendGateState :=
  { run := runAfterExtraction,
    rankings := [undecidedRanking, rejectedRanking],
    recipient_email := none, sent_count := none, sent_at := none,
    deliveries := 0 }

/-- A send-gate state whose send stage is completed while zero rankings are
currently approved. -/
def stCorner : SendGateState :=
  { stSent with rankings := [rejectedRanking] }

/-! ## Theorems -/

/-- Helper: `assignPositions` preserves length. -/
theorem assignPositions_length (n : Nat) (l : List ScoredListing) :
    (assignPositions n l).length = l.length := by
  induction l generalizing n with
  | nil => rfl
  | cons s rest ih => simp [assignPositions, ih]

/-- Helper: `assignPositions` keeps the underlying listings in order. -/
theorem assignPositions_map_listing (n : Nat) (l : List ScoredListing) :
    (assignPositions n l).map RankedListing.listing = l.map ScoredListing.listing := by
  induction l generalizing n with
  | nil => rfl
  | cons s rest ih => simp [assignPositions, toRankedListing, ih]

/-- Helper: the positions `assignPositions` writes are consecutive from
`n`. -/
theorem assignPositions_map_pos (n : Nat) (l : List ScoredListing) :
    (assignPositions n l).map RankedListing.rank_position =
      (List.range' n l.length).map some := by
  induction l generalizing n with
  | nil => rfl
  | cons s rest ih =>
    simp [assignPositions, toRankedListing, List.range'_succ, ih]

/-- Helper: every element of `assignPositions` wraps an element of the
input. -/
theorem mem_assignPositions {b : RankedListing} {n : Nat} {l : List ScoredListing}
    (h : b ∈ assignPositions n l) :
    ∃ s m, s ∈ l ∧ b = toRankedListing s m := by
  induction l generalizing n with
  | nil => cases h
  | cons s rest ih =>
    rcases List.mem_cons.mp h with h | h
    · exact ⟨s, n, List.mem_cons_self s rest, h⟩
    · obtain ⟨t, m, ht, rfl⟩ := ih h
      exact ⟨t, m, List.mem_cons_of_mem s ht, rfl⟩

/-- Helper: the boolean ranking comparison implies the claim's order on the
wrapped ranked listings. -/
theorem rankLE_toRankedListing {a b : ScoredListing} (h : rankLE a b = true)
    (n m : Nat) :
    rankedBefore (toRankedListing a n) (toRankedListing b m) := by
  simp only [rankLE, Bool.or_eq_true, Bool.and_eq_true, Bool.not_eq_true',
    beq_iff_eq, decide_eq_true_eq] at h
  rcases h with ⟨h1, h2⟩ | ⟨h1, h2⟩
  · exact Or.inl ⟨by simp [toRankedListing, h1], by simp [toRankedListing, h2]⟩
  · refine Or.inr ⟨by simp [toRankedListing, h1], a.overall_score, b.overall_score,
      rfl, rfl, ?_⟩
    rcases h2 with h2 | ⟨h2, h3⟩
    · exact Or.inl h2
    · exact Or.inr ⟨h2, h3⟩

/-- Helper: a list pairwise ordered by `rankLE` stays pairwise ordered by
`rankedBefore` after positions are assigned. -/
theorem assignPositions_pairwise {l : List ScoredListing}
    (h : l.Pairwise fun a b => rankLE a b = true) (n : Nat) :
    (assignPositions n l).Pairwise rankedBefore := by
  induction l generalizing n with
  | nil => exact List.Pairwise.nil
  | cons s rest ih =>
    rw [List.pairwise_cons] at h
    obtain ⟨hs, hrest⟩ := h
    refine List.pairwise_cons.mpr ⟨fun b hb => ?_, ih hrest (n + 1)⟩
    obtain ⟨t, m, ht, rfl⟩ := mem_assignPositions hb
    exact rankLE_toRankedListing (hs t ht) n m

/-- Helper: the ranking comparison is total. -/
theorem rankLE_total (a b : ScoredListing) : (rankLE a b || rankLE b a) = true := by
  simp only [rankLE, Bool.or_eq_true, Bool.and_eq_true, Bool.not_eq_true',
    beq_iff_eq, decide_eq_true_eq]
  cases hp : a.must_have_pass <;> cases hq : b.must_have_pass
  · rcases lt_trichotomy a.overall_score b.overall_score with h | h | h
    · exact Or.inr (Or.inr ⟨rfl, Or.inl h⟩)
    · rcases Nat.le_total a.listing.id b.listing.id with hid | hid
      · exact Or.inl (Or.inr ⟨rfl, Or.inr ⟨h, hid⟩⟩)
      · exact Or.inr (Or.inr ⟨rfl, Or.inr ⟨h.symm, hid⟩⟩)
    · exact Or.inl (Or.inr ⟨rfl, Or.inl h⟩)
  · exact Or.inr (Or.inl ⟨rfl, rfl⟩)
  · exact Or.inl (Or.inl ⟨rfl, rfl⟩)
  · rcases lt_trichotomy a.overall_score b.overall_score with h | h | h
    · exact Or.inr (Or.inr ⟨rfl, Or.inl h⟩)
    · rcases Nat.le_total a.listing.id b.listing.id with hid | hid
      · exact Or.inl (Or.inr ⟨rfl, Or.inr ⟨h, hid⟩⟩)
      · exact Or.inr (Or.inr ⟨rfl, Or.inr ⟨h.symm, hid⟩⟩)
    · exact Or.inl (Or.inr ⟨rfl, Or.inl h⟩)

/-- Helper: the ranking comparison is transitive. -/
theorem rankLE_trans (a b c : ScoredListing) (hab : rankLE a b = true)
    (hbc : rankLE b c = true) : rankLE a c = true := by
  simp only [rankLE, Bool.or_eq_true, Bool.and_eq_true, Bool.not_eq_true',
    beq_iff_eq, decide_eq_true_eq] at hab hbc ⊢
  rcases hab with ⟨ha1, hb1⟩ | ⟨hab1, hab2⟩
  · rcases hbc with ⟨hb2, hc1⟩ | ⟨hbc1, hbc2⟩
    · rw [hb1] at hb2; cases hb2
    · exact Or.inl ⟨ha1, hbc1 ▸ hb1⟩
  · rcases hbc with ⟨hb2, hc1⟩ | ⟨hbc1, hbc2⟩
    · exact Or.inl ⟨hab1 ▸ hb2, hc1⟩
    · refine Or.inr ⟨hab1.trans hbc1, ?_⟩
      rcases hab2 with h1 | ⟨h1, h2⟩
      · rcases hbc2 with h3 | ⟨h3, h4⟩
        · exact Or.inl (h3.trans h1)
        · exact Or.inl (by rw [← h3]; exact h1)
      · rcases hbc2 with h3 | ⟨h3, h4⟩
        · exact Or.inl (by rw [h1]; exact h3)
        · exact Or.inr ⟨h1.trans h3, h2.trans h4⟩

/-- Helper: scoring never changes the listing it scores. -/
theorem score_listing_eq (req : ExtractedRequirement) (l : Listing) :
    (score req l).listing = l := rfl

/-- C1: for every requirement and input list of N listings, `rank` returns
exactly N ranked listings, a permutation of the input (none dropped),
pairwise ordered primarily by `must_have_pass` descending, secondarily by
`overall_score` descending with ties broken by listing id ascending, with
`rank_position` equal to the 1-based index in that order — so the positions
are exactly `1..N` — and empty input yields empty output. -/
theorem rank_spec (req : ExtractedRequirement) (ls : List Listing) :
    (rank req ls).length = ls.length ∧
    ((rank req ls).map RankedListing.listing).Perm ls ∧
    (rank req ls).map RankedListing.rank_position =
      (List.range' 1 ls.length).map some ∧
    (rank req ls).Pairwise rankedBefore ∧
    rank req ([] : List Listing) = [] := by
  have hperm := List.mergeSort_perm (ls.map (score req)) rankLE
  have hlen : ((ls.map (score req)).mergeSort rankLE).length = ls.length := by
    rw [List.length_mergeSort, List.length_map]
  refine ⟨?_, ?_, ?_, ?_, by simp [rank, assignPositions]⟩
  · rw [rank, assignPositions_length, hlen]
  · rw [rank, assignPositions_map_listing]
    have h1 := hperm.map ScoredListing.listing
    have h2 : (ls.map (score req)).map ScoredListing.listing = ls := by
      rw [List.map_map]
      exact List.map_id'' (fun l => score_listing_eq req l) ls
    rwa [h2] at h1
  · rw [rank, assignPositions_map_pos, hlen]
  · exact assignPositions_pairwise
      (List.sorted_mergeSort rankLE_trans rankLE_total (ls.map (score req))) 1

/-- C2: a failure during stage N sets the run's status to failed, records
the error message, leaves `current_stage` at N, and changes no stage
completion timestamp — so timestamps of previously completed stages remain
set. -/
theorem stage_failure_frame (run : PipelineRun) (s : PipelineStage) (msg : String)
    (h : run.current_stage = s) :
    (finishStage run s (.failure msg)).status = .failed ∧
    (finishStage run s (.failure msg)).error_message = some msg ∧
    (finishStage run s (.failure msg)).current_stage = s ∧
    ∀ t, completedAt (finishStage run s (.failure msg)) t = completedAt run t := by
  exact ⟨rfl, rfl, h, fun t => by cases t <;> rfl⟩

/-- Witness for C2: the search stage fails on a run whose extraction
completed; the run is failed at search and every timestamp — in particular
`extraction_completed_at` — is unchanged. -/
theorem stage_failure_frame_witness :
    runAfterExtraction.current_stage = .search ∧
    ((finishStage runAfterExtraction .search (.failure "search provider unavailable")).status = .failed ∧
     (finishStage runAfterExtraction .search (.failure "search provider unavailable")).error_message =
       some "search provider unavailable" ∧
     (finishStage runAfterExtraction .search (.failure "search provider unavailable")).current_stage = .search ∧
     ∀ t, completedAt (finishStage runAfterExtraction .search (.failure "search provider unavailable")) t =
       completedAt runAfterExtraction t) :=
  ⟨rfl, stage_failure_frame runAfterExtraction .search "search provider unavailable" rfl⟩

/-- C3: a stage other than ingestion begins only if its predecessor's
completion timestamp is set, and entering a stage sets `current_stage` to
that stage and `status` to in_progress; `startStage` refuses every
out-of-order entry. -/
theorem stage_order (run : PipelineRun) (s : PipelineStage) (r' : PipelineRun)
    (h : startStage run s = some r') :
    (∀ p, prevStage s = some p → (completedAt run p).isSome = true) ∧
    r'.current_stage = s ∧ r'.status = .in_progress := by
  unfold startStage at h
  split at h
  case isTrue hc =>
    obtain rfl : ({ run with current_stage := s, status := .in_progress } : PipelineRun) = r' :=
      by injection h
    refine ⟨fun p hp => ?_, rfl, rfl⟩
    unfold canStart at hc
    rw [hp] at hc
    exact hc
  case isFalse => cases h

/-- Witness for C3: entering search on a run whose extraction completed
succeeds, with the predecessor timestamp set and the entered run in
progress at search. -/
theorem stage_order_witness :
    (∀ p, prevStage .search = some p →
      (completedAt runAfterExtraction p).isSome = true) ∧
    runEnteredSearch.current_stage = .search ∧
    runEnteredSearch.status = .in_progress :=
  stage_order runAfterExtraction .search runEnteredSearch rfl

/-- Helper: a numeric-maximum check, when evaluated, is stored under its own
key. -/
theorem checkNumericMax_key {key : String} {b v : Option ℚ} {c : String × Check}
    (h : checkNumericMax key b v = some c) : c.1 = key := by
  rcases b with _ | b' <;> rcases v with _ | x <;> simp [checkNumericMax] at h <;>
    simp [← h]

/-- Helper: a numeric-minimum check, when evaluated, is stored under its own
key. -/
theorem checkNumericMin_key {key : String} {b v : Option ℚ} {c : String × Check}
    (h : checkNumericMin key b v = some c) : c.1 = key := by
  rcases b with _ | b' <;> rcases v with _ | x <;> simp [checkNumericMin] at h <;>
    simp [← h]

/-- Helper: looking a key up past an optional entry stored under a different
key. -/
theorem lookup_toList_append {k : String} {oc : Option (String × Check)}
    {rest : List (String × Check)}
    (h : ∀ c, oc = some c → (k == c.1) = false) :
    List.lookup k (oc.toList ++ rest) = List.lookup k rest := by
  rcases oc with _ | c
  · rfl
  · simp [List.lookup, h c rfl]

/-- C4: whenever a numeric must-have bound is set (`budget_max` as a
maximum, `min_beds`, `min_baths`, `min_sqft` as minimums) and the listing's
corresponding numeric field is null, that check fails regardless of the
listing's other fields and its reason is "unknown value, cannot verify". -/
theorem numeric_null_check_fails (req : ExtractedRequirement) (l : Listing) :
    (req.budget_max.isSome = true → l.price = none →
      ((score req l).score_breakdown.must_have_checks).lookup "budget_max" =
        some ⟨false, unknownReason⟩) ∧
    (req.min_beds.isSome = true → l.bedrooms = none →
      ((score req l).score_breakdown.must_have_checks).lookup "min_beds" =
        some ⟨false, unknownReason⟩) ∧
    (req.min_baths.isSome = true → l.bathrooms = none →
      ((score req l).score_breakdown.must_have_checks).lookup "min_baths" =
        some ⟨false, unknownReason⟩) ∧
    (req.min_sqft.isSome = true → l.sqft = none →
      ((score req l).score_breakdown.must_have_checks).lookup "min_sqft" =
        some ⟨false, unknownReason⟩) := by
  have hchecks : (score req l).score_breakdown.must_have_checks = mustHaveChecks req l := rfl
  refine ⟨fun hb hv => ?_, fun hb hv => ?_, fun hb hv => ?_, fun hb hv => ?_⟩ <;>
    rw [hchecks] <;> obtain ⟨b, hb⟩ := Option.isSome_iff_exists.mp hb <;>
    unfold mustHaveChecks <;> simp only [List.append_assoc]
  · rw [hb, hv]
    simp [checkNumericMax, List.lookup]
  · rw [lookup_toList_append fun c hc => by rw [checkNumericMax_key hc]; decide]
    rw [hb, hv]
    simp [checkNumericMin, List.lookup]
  · rw [lookup_toList_append fun c hc => by rw [checkNumericMax_key hc]; decide]
    rw [lookup_toList_append fun c hc => by rw [checkNumericMin_key hc]; decide]
    rw [hb, hv]
    simp [checkNumericMin, List.lookup]
  · rw [lookup_toList_append fun c hc => by rw [checkNumericMax_key hc]; decide]
    rw [lookup_toList_append fun c hc => by rw [checkNumericMin_key hc]; decide]
    rw [lookup_toList_append fun c hc => by rw [checkNumericMin_key hc]; decide]
    rw [hb, hv]
    simp [checkNumericMin, List.lookup]

/-- C5: when zero must-have checks are evaluated, the must-have rate is 1
and `must_have_pass` is true for every listing. -/
theorem score_no_checks (req : ExtractedRequirement) (l : Listing)
    (h : (score req l).score_breakdown.must_have_checks = []) :
    (score req l).score_breakdown.must_have_rate = 1 ∧
    (score req l).must_have_pass = true := by
  have h' : mustHaveChecks req l = [] := h
  have hr : mustHaveRate req l = 1 := by simp [mustHaveRate, h']
  exact ⟨by simp [score, hr], by simp [score, hr]⟩

/-- Witness for C5: the empty requirement evaluates zero checks on the
sample listing and yields rate 1 with a passing gate. -/
theorem score_no_checks_witness :
    (score emptyReq sampleListing).score_breakdown.must_have_rate = 1 ∧
    (score emptyReq sampleListing).must_have_pass = true :=
  score_no_checks emptyReq sampleListing rfl

/-- C6: the overall score is
`weights.must_have * must_have_rate + weights.nice_to_have * nice_to_have_score`,
the default weights are 0.7 and 0.3 and sum to 1, and with no must-have
checks and no nice-to-haves every listing's overall score is 1. -/
theorem overall_score_formula (req : ExtractedRequirement) (l : Listing) :
    (score req l).overall_score =
      (score req l).score_breakdown.weights.must_have *
        (score req l).score_breakdown.must_have_rate +
      (score req l).score_breakdown.weights.nice_to_have *
        (score req l).nice_to_have_score ∧
    defaultWeights.must_have = 7 / 10 ∧
    defaultWeights.nice_to_have = 3 / 10 ∧
    defaultWeights.must_have + defaultWeights.nice_to_have = 1 ∧
    ((score req l).score_breakdown.must_have_checks = [] → req.nice_to_haves = [] →
      (score req l).overall_score = 1) := by
  refine ⟨rfl, rfl, rfl, by norm_num [defaultWeights], fun h1 h2 => ?_⟩
  have h1' : mustHaveChecks req l = [] := h1
  have hr : mustHaveRate req l = 1 := by simp [mustHaveRate, h1']
  have hn : niceToHaveScore req l = 1 := by
    simp [niceToHaveScore, niceToHaveDetails, h2]
  show defaultWeights.must_have * mustHaveRate req l +
    defaultWeights.nice_to_have * niceToHaveScore req l = 1
  rw [hr, hn]
  norm_num [defaultWeights]

/-- C7: once the run's send stage is completed, `send` is idempotent — it
returns the recorded prior delivery result, leaves the state (and the count
of performed deliveries) unchanged, and a second consecutive call returns
the identical `sent_count` and `sent_at`. -/
theorem send_idem (st : SendGateState) (r1 t1 r2 t2 : String)
    (h : sendCompleted st = true) :
    send st r1 t1 = (st, .ok (priorResult st)) ∧
    send (send st r1 t1).1 r2 t2 = (st, .ok (priorResult st)) ∧
    (send st r1 t1).1.deliveries = st.deliveries := by
  have h1 : send st r1 t1 = (st, .ok (priorResult st)) := by simp [send, h]
  exact ⟨h1, by rw [h1]; simp [send, h], by rw [h1]⟩

/-- Witness for C7: two consecutive `send` calls on the already-sent state
both return the recorded prior result and perform no delivery. -/
theorem send_idem_witness :
    send stSent "client@example.com" "2024-01-02T00:00:00Z" =
      (stSent, .ok (priorResult stSent)) ∧
    send (send stSent "client@example.com" "2024-01-02T00:00:00Z").1
        "client@example.com" "2024-01-03T00:00:00Z" =
      (stSent, .ok (priorResult stSent)) ∧
    (send stSent "client@example.com" "2024-01-02T00:00:00Z").1.deliveries =
      stSent.deliveries :=
  send_idem stSent "client@example.com" "2024-01-02T00:00:00Z"
    "client@example.com" "2024-01-03T00:00:00Z" rfl

/-- C8 (amended): on a run whose send stage is not yet completed, `send`
with zero approved rankings fails with `PreconditionFailed` and performs no
delivery (the state, including the delivery counter, is unchanged). -/
theorem send_zero_approvals (st : SendGateState) (recipient now : String)
    (h1 : sendCompleted st = false) (h2 : approvedCount st = 0) :
    send st recipient now = (st, .error .PreconditionFailed) ∧
    (send st recipient now).1.deliveries = st.deliveries := by
  have h : send st recipient now = (st, .error .PreconditionFailed) := by
    simp [send, h1, h2]
  exact ⟨h, by rw [h]⟩

/-- Witness for C8: on a fresh state whose two rankings are undecided and
rejected, `send` fails with `PreconditionFailed` and delivers nothing. -/
theorem send_zero_approvals_witness :
    send stFresh "client@example.com" "2024-01-02T00:00:00Z" =
      (stFresh, .error .PreconditionFailed) ∧
    (send stFresh "client@example.com" "2024-01-02T00:00:00Z").1.deliveries =
      stFresh.deliveries :=
  send_zero_approvals stFresh "client@example.com" "2024-01-02T00:00:00Z" rfl rfl

/-- Counterexample for C8 as stated: on a run whose send stage is already
completed while zero rankings are approved, `send` does not fail with
`PreconditionFailed` — the at-most-once rule answers with the prior result
instead. -/
theorem send_zero_approvals_ce :
    approvedCount stCorner = 0 ∧
    sendCompleted stCorner = true ∧
    (send stCorner "client@example.com" "2024-01-02T00:00:00Z").2 ≠
      Except.error GateError.PreconditionFailed := by
  refine ⟨rfl, rfl, ?_⟩
  simp [send, sendCompleted, stCorner, stSent, completedAt]

/-- C9 (amended): `getStageStatus` returns failed exactly when the run's
status is failed and the current stage is the queried stage; otherwise
completed exactly when the stage's completion timestamp is truthy (non-null
and non-empty); otherwise active exactly when the queried stage is the
current stage; otherwise pending. -/
theorem getStageStatus_characterization (stage : PipelineStage) (run : PipelineRun) :
    (getStageStatus stage run = .failed ↔
      (run.status = .failed ∧ run.current_stage = stage)) ∧
    (¬(run.status = .failed ∧ run.current_stage = stage) →
      (getStageStatus stage run = .completed ↔ jsTruthy (completedAt run stage) = true)) ∧
    (¬(run.status = .failed ∧ run.current_stage = stage) →
      jsTruthy (completedAt run stage) = false →
      (getStageStatus stage run = .active ↔ run.current_stage = stage)) ∧
    (¬(run.status = .failed ∧ run.current_stage = stage) →
      jsTruthy (completedAt run stage) = false →
      run.current_stage ≠ stage →
      getStageStatus stage run = .pending) := by
  unfold getStageStatus
  refine ⟨?_, ?_, ?_, ?_⟩ <;> split_ifs with h1 h2 h3 <;>
    simp_all [Bool.and_eq_true, beq_iff_eq]

/-- Counterexample for C9 as stated: a run whose extraction timestamp is the
empty string — non-null, and the run is not failed at extraction — is
reported pending, not completed, because the source tests JavaScript
truthiness rather than non-nullness. -/
theorem getStageStatus_nonnull_ce :
    runCE.extraction_completed_at ≠ none ∧
    ¬(runCE.status = .failed ∧ runCE.current_stage = .extraction) ∧
    getStageStatus .extraction runCE ≠ .completed ∧
    getStageStatus .extraction runCE = .pending := by
  refine ⟨by simp [runCE], by simp [runCE], ?_, ?_⟩ <;>
    simp [getStageStatus, runCE, jsTruthy, completedAt]

/-- C10: the send page's approved list keeps a ranking exactly when
`approved_by_harry` is strictly true — undecided (null) and rejected
(false) rankings are excluded — and the send button is disabled whenever
the approved list is empty or the recipient email trims to blank. -/
theorem sendPage_approved_gate (rankings : List RankedListing) (sending : Bool)
    (email : String) :
    (∀ r, r ∈ approvedRankings rankings ↔
      (r ∈ rankings ∧ r.approved_by_harry = some true)) ∧
    (approvedRankings rankings = [] →
      sendButtonDisabled sending email (approvedRankings rankings) = true) ∧
    (jsTrim email = "" →
      sendButtonDisabled sending email (approvedRankings rankings) = true) := by
  refine ⟨fun r => ?_, fun h => ?_, fun h => ?_⟩
  · simp [approvedRankings, List.mem_filter]
  · simp [sendButtonDisabled, h]
  · simp [sendButtonDisabled, h]

end RealEstate
